import Mathlib

/-!
Formal model of the Toei prober magnet controller
(`magnet_toei_prober/controller/__init__.py`).

Real-valued quantities are modelled as rationals: every floating-point
literal of the source denotes the decimal rational written in the program
text, and arithmetic is exact. Timestamps are abstract instants (naturals
supplied by the caller, one per `datetime.datetime.now()` call). The DAQ
driver is an external collaborator, so each hardware interaction is a
parameter of the operation that performs it: the samples a read returns
(or the error it raises), and whether a write succeeds. Each operation
additionally records the trace of hardware-session events it performs.
-/

namespace Magnet

/-- Snapshot of the last commanded output: the `MagnetOutput` named tuple
`(timestamp, field, voltage)` of the source. -/
structure MagnetOutput where
  timestamp : ℕ
  field : ℚ
  voltage : ℚ
  deriving DecidableEq, Repr

/-- Snapshot of the last sensor measurement: the `MeasuredMagneticField`
named tuple `(timestamp, field, hall_voltage)` of the source. -/
structure MeasuredMagneticField where
  timestamp : ℕ
  field : ℚ
  hall_voltage : ℚ
  deriving DecidableEq, Repr

/-- Configuration fields of the `Controller` dataclass, with the source's
default values. `WRITE_ARRAY_LENGTH` has default
`int(WRITE_SAMPLE_CLOCK * TIME_VOLTAGE_SWEEP) = int(100e3 * 10e-3) = 1000`,
computed once from the class-level defaults. -/
structure Config where
  DAQ_ADDRESS : String := "Dev1"
  V_HALL_ADDRESS : String := "ai0"
  V_OUT_ADDRESS : String := "ao0"
  READ_SAMPLE_CLOCK : ℚ := 1000
  READ_SAMPLE_NUM : ℕ := 100
  TIME_VOLTAGE_SWEEP : ℚ := 10e-3
  WRITE_SAMPLE_CLOCK : ℚ := 100e3
  WRITE_ARRAY_LENGTH : ℕ := 1000
  V_OUT_MAX : ℚ := 10
  V_OUT_MIN : ℚ := -10
  V_IN_MAX : ℚ := 10
  V_IN_MIN : ℚ := -10
  LOG_PATH : String := "./magnet_controller.log"
  print_log : Bool := true
  save_log : Bool := true
  deriving DecidableEq, Repr

/-- Mutable state of a `Controller` instance: `_output_field`,
`_measured_field` (both `None` before first assignment) and the `_log`
dict, modelled as an association list ordered by insertion. -/
structure Controller where
  output_field : Option MagnetOutput := none
  measured_field : Option MeasuredMagneticField := none
  log : List (ℕ × String) := []
  deriving DecidableEq, Repr

/-- Python `int()` truncation toward zero of a rational. -/
def pyInt (q : ℚ) : ℤ :=
  if 0 ≤ q then ⌊q⌋ else ⌈q⌉

/-- Ramp array length as the source computes it from a sample rate and a
sweep duration: `int(WRITE_SAMPLE_CLOCK * TIME_VOLTAGE_SWEEP)`. -/
def rampLen (cfg : Config) : ℕ :=
  (pyInt (cfg.WRITE_SAMPLE_CLOCK * cfg.TIME_VOLTAGE_SWEEP)).toNat

/-- Source `Controller.H2V`: convert a target magnetic field (Oe) to an
output voltage (V) by the fitted fifth-degree calibration polynomial. -/
def H2V (H : ℚ) : ℚ :=
  -0.01268 + 0.00281 * H + 3.02608e-10 * H ^ 2 - 1.5036e-11 * H ^ 3
    - 1.66895e-16 * H ^ 4 + 3.15376e-18 * H ^ 5

/-- Source `Controller.V2H`: convert a hall voltage (V) to a magnetic
field (Oe) by the fitted fifth-degree calibration polynomial. -/
def V2H (V : ℚ) : ℚ :=
  -0.05665 + 260.16273 * V - 2.1979e-5 * V ^ 2 + 0.01858 * V ^ 3
    + 1.97225e-4 * V ^ 4 - 2.33726e-4 * V ^ 5

/-- Arithmetic mean of a sample list (`np.mean`); samples are nonempty in
every actual hardware read. -/
def mean (data : List ℚ) : ℚ :=
  data.sum / data.length

/-- Model of `np.linspace a b n`: `n` evenly spaced samples from `a` to
`b`, both endpoints included when `n ≥ 2`. -/
def linspace (a b : ℚ) (n : ℕ) : List ℚ :=
  if n = 0 then []
  else if n = 1 then [a]
  else (List.range n).map fun i : ℕ => a + (b - a) * (i : ℚ) / ((n : ℚ) - 1)

/-- Errors an operation can raise: `ValueError` with its message (the two
raises of the source), a hardware error propagated from the DAQ driver,
and Python's `AttributeError` (attribute access on `None`). -/
inductive Err where
  | valueError (msg : String)
  | hardware (msg : String)
  | attributeError
  deriving DecidableEq, Repr

/-- Hardware-session events an operation performs, in order: `Task()`
creation opens a session, `task.read` / `task.write` use it, `task.stop`
and `task.close` release it. -/
inductive Event where
  | sessionOpen
  | readSamples
  | writeSamples (samples : List ℚ)
  | sessionStop
  | sessionClose
  deriving DecidableEq, Repr

/-- Payloads of the write events of a trace, in order. -/
def writes (es : List Event) : List (List ℚ) :=
  es.filterMap fun e =>
    match e with
    | .writeSamples v => some v
    | _ => none

/-- Number of sessions opened in a trace (`nidaqmx.Task()` calls). -/
def openCount (es : List Event) : ℕ :=
  (es.filter fun e => e = .sessionOpen).length

/-- Number of sessions closed in a trace (`task.close()` calls). -/
def closeCount (es : List Event) : ℕ :=
  (es.filter fun e => e = .sessionClose).length

/-- Number of sessions stopped in a trace (`task.stop()` calls). -/
def stopCount (es : List Event) : ℕ :=
  (es.filter fun e => e = .sessionStop).length

/-- Number of reads performed in a trace (`task.read` calls, whether they
succeed or raise). -/
def readCount (es : List Event) : ℕ :=
  (es.filter fun e => e = .readSamples).length

/-- Python dict assignment `d[k] = v` on the `_log` dict: overwrite in
place when the key is present, append otherwise. -/
def dictInsert (l : List (ℕ × String)) (k : ℕ) (v : String) : List (ℕ × String) :=
  if l.any fun p => p.1 = k then
    l.map fun p => if p.1 = k then (k, v) else p
  else
    l ++ [(k, v)]

/-- Effect of `Controller.log` on the in-memory `_log` dict:
`self._log[datetime.datetime.now()] = message`. Console printing and the
file append have no effect on controller state; the file side is modelled
separately by `logFile`. -/
def logMem (s : Controller) (now : ℕ) (message : String) : Controller :=
  { s with log := dictInsert s.log now message }

/-- Result of running one controller operation: the value returned or the
error raised, the controller state at exit (also when the operation
raises, since the side effects up to the raise persist), and the trace of
hardware-session events. -/
structure RunResult (α : Type) where
  result : Except Err α
  state : Controller
  events : List Event
  deriving Repr

/-- Outcome of the one DAQ read an operation performs: the sample list
`task.read` returns, or the hardware error it raises. -/
abbrev ReadOutcome : Type := Except String (List ℚ)

/-- Outcome of the one DAQ write an operation performs: `none` when
`task.write`/`task.wait_until_done` succeed, `some msg` for the hardware
error raised. -/
abbrev WriteOutcome : Type := Option String

/-- Source `Controller.measured_field` (property): open a session on the
input channel, read `READ_SAMPLE_NUM` samples, stop and close the task,
average the samples, convert by `V2H`, store the timestamped record in
`_measured_field` and return it. When `task.read` raises, the error
propagates before `task.stop()`/`task.close()` run, so the trace ends at
the read. -/
def measuredFieldRun (s : Controller) (rd : ReadOutcome) (now : ℕ) :
    RunResult MeasuredMagneticField :=
  match rd with
  | .error e => ⟨.error (.hardware e), s, [.sessionOpen, .readSamples]⟩
  | .ok data =>
      let V := mean data
      let H := V2H V
      let m : MeasuredMagneticField := ⟨now, H, V⟩
      ⟨.ok m, { s with measured_field := some m },
        [.sessionOpen, .readSamples, .sessionStop, .sessionClose]⟩

/-- Message logged by the `output_field` setter on success,
`f"--- Magnetic field is set to ... Oe. ---"`. -/
def setOkMsg (target_field : ℚ) : String :=
  "--- Magnetic field is set to " ++ toString target_field ++ " Oe. ---"

/-- Source `Controller.output_field` setter: convert the target field by
`H2V`; when the converted voltage is `< V_OUT_MAX` and `< V_IN_MAX`, open
a session, write `np.linspace(self.output_field.voltage, target_voltage,
WRITE_ARRAY_LENGTH)`, stop and close the task, store the new
`MagnetOutput` and log; otherwise log and raise
`ValueError("Output voltage is not valid.")` with the state (other than
the log) untouched. Reading `.voltage` of a `None` output field raises
`AttributeError` after the session was opened; a hardware error from the
write propagates before `stop`/`close` run. -/
def outputFieldSetRun (cfg : Config) (s : Controller) (target_field : ℚ)
    (wr : WriteOutcome) (tlog tout : ℕ) : RunResult Unit :=
  let target_voltage := H2V target_field
  if target_voltage < cfg.V_OUT_MAX ∧ target_voltage < cfg.V_IN_MAX then
    match s.output_field with
    | none => ⟨.error .attributeError, s, [.sessionOpen]⟩
    | some prev =>
        let v_out := linspace prev.voltage target_voltage cfg.WRITE_ARRAY_LENGTH
        match wr with
        | some e => ⟨.error (.hardware e), s, [.sessionOpen, .writeSamples v_out]⟩
        | none =>
            let s1 := { s with output_field := some ⟨tout, target_field, target_voltage⟩ }
            ⟨.ok (), logMem s1 tlog (setOkMsg target_field),
              [.sessionOpen, .writeSamples v_out, .sessionStop, .sessionClose]⟩
  else
    ⟨.error (.valueError "Output voltage is not valid."),
      logMem s tlog "--- Output voltage is not valid. ---", []⟩

/-- Source `Controller.__post_init__`: read the current field through
`measured_field`; when its magnitude is below 10 Oe, log and set
`_output_field` to the synthetic zero record; otherwise log and raise
`ValueError("Initial magnetic field is not zero.")`. A hardware error
from the read propagates before either branch runs. The argument
timestamps stand for the successive `datetime.datetime.now()` calls. -/
def constructRun (rd : ReadOutcome) (tread tlog tout : ℕ) : RunResult Unit :=
  let r := measuredFieldRun {} rd tread
  match r.result with
  | .error e => ⟨.error e, r.state, r.events⟩
  | .ok current_field =>
      if |current_field.field| < 10 then
        let s1 := logMem r.state tlog "--- Initializing. Magnetic field is zero. ---"
        ⟨.ok (), { s1 with output_field := some ⟨tout, 0, 0⟩ }, r.events⟩
      else
        ⟨.error (.valueError "Initial magnetic field is not zero."),
          logMem r.state tlog "Initial magnetic field is not zero.", r.events⟩

/-- Contents of the log file at `LOG_PATH`: `none` models an absent file,
`some lines` a file holding those lines. -/
structure FileSys where
  file : Option (List String)
  deriving DecidableEq, Repr

/-- Line appended to the log file by one `Controller.log` call
(`f"..now..   ..message.."` followed by a newline). -/
def logLine (now : ℕ) (message : String) : String :=
  toString now ++ "   " ++ message

/-- Model of `open(LOG_PATH, "a")` followed by one write: appends to the
file when it exists and raises `FileNotFoundError` when it is missing at
the path — the failure mode the fallback of `Controller.log` handles. -/
def appendLine (fs : FileSys) (line : String) : Except Unit FileSys :=
  match fs.file with
  | none => .error ()
  | some ls => .ok ⟨some (ls ++ [line])⟩

/-- Model of `open(LOG_PATH, "w")` followed by one write: creates the
file holding the single line (truncating any previous contents). -/
def truncWriteLine (_fs : FileSys) (line : String) : FileSys :=
  ⟨some [line]⟩

/-- Effect of one `Controller.log` call on the log file: when `save_log`
is set, try the append and fall back to create-and-write on
`FileNotFoundError`; otherwise leave the file alone. -/
def logFile (cfg : Config) (fs : FileSys) (now : ℕ) (message : String) : FileSys :=
  if cfg.save_log then
    match appendLine fs (logLine now message) with
    | .ok fs1 => fs1
    | .error () => truncWriteLine fs (logLine now message)
  else fs

/-- One public operation invoked after construction, together with the
oracle inputs it consumes: a `measured_field` read, an `output_field`
set, or an `output_field` get (which touches no state). -/
inductive Op where
  | measure (rd : ReadOutcome) (now : ℕ)
  | setField (target : ℚ) (wr : WriteOutcome) (tlog tout : ℕ)
  | getField

/-- Controller state after running one public operation (also when the
operation raises, since the side effects up to the raise persist). -/
def stepState (cfg : Config) (s : Controller) : Op → Controller
  | .measure rd now => (measuredFieldRun s rd now).state
  | .setField target wr tlog tout => (outputFieldSetRun cfg s target wr tlog tout).state
  | .getField => s

/-- States of a controller with configuration `cfg` that are reachable by
a successful construction followed by any sequence of public
operations. -/
inductive Reachable (cfg : Config) : Controller → Prop
  | init (rd : ReadOutcome) (tread tlog tout : ℕ)
      (h : (constructRun rd tread tlog tout).result = .ok ()) :
      Reachable cfg (constructRun rd tread tlog tout).state
  | step (s : Controller) (op : Op) (hs : Reachable cfg s) :
      Reachable cfg (stepState cfg s op)

example : H2V 0 = -0.01268 := by norm_num [H2V]
example : V2H 0 = -0.05665 := by norm_num [V2H]
example : |V2H 0| < 10 := by norm_num [V2H, abs_lt]
example : linspace 0 4 5 = [0, 1, 2, 3, 4] := by
  norm_num [linspace, List.range_succ]
example : rampLen {} = 1000 := by
  norm_num [rampLen, pyInt]
  decide
example : H2V 100 < 10 := by norm_num [H2V]

/-! ### Helper lemmas -/

theorem linspace_length (a b : ℚ) (n : ℕ) : (linspace a b n).length = n := by
  unfold linspace
  split
  · simp [*]
  · split
    · simp [*]
    · simp

theorem linspace_head (a b : ℚ) (n : ℕ) (h : 2 ≤ n) :
    (linspace a b n).head? = some a := by
  obtain ⟨m, rfl⟩ : ∃ m, n = m + 2 := ⟨n - 2, by omega⟩
  unfold linspace
  rw [if_neg (by omega), if_neg (by omega), List.range_succ_eq_map]
  simp

theorem linspace_getLast (a b : ℚ) (n : ℕ) (h : 2 ≤ n) :
    (linspace a b n).getLast? = some b := by
  obtain ⟨m, rfl⟩ : ∃ m, n = m + 2 := ⟨n - 2, by omega⟩
  unfold linspace
  rw [if_neg (by omega), if_neg (by omega), List.range_succ, List.map_append]
  simp only [List.map_cons, List.map_nil]
  rw [List.getLast?_concat]
  have hm : ((m : ℚ) + 1) ≠ 0 := by positivity
  push_cast
  rw [show (m : ℚ) + 2 - 1 = (m : ℚ) + 1 by ring, mul_div_assoc, div_self hm,
    mul_one, add_sub_cancel]

theorem lookup_map_overwrite (k : ℕ) (v : String) (l : List (ℕ × String)) :
    ((l.map fun p => if p.1 = k then (k, v) else p).lookup k = some v) ∨
    (∀ p ∈ l, p.1 ≠ k) := by
  induction l with
  | nil => right; simp
  | cons a t ih =>
      obtain ⟨ak, av⟩ := a
      by_cases hk : ak = k
      · left
        subst hk
        simp [List.lookup_cons]
      · rcases ih with ih | ih
        · left
          simp only [List.map_cons, if_neg (show ¬ (ak, av).1 = k from hk)]
          rw [List.lookup_cons]
          simp [beq_false_of_ne (Ne.symm hk), ih]
        · right
          intro p hp
          rcases List.mem_cons.mp hp with hp | hp
          · subst hp; exact hk
          · exact ih p hp

theorem lookup_append_new (k : ℕ) (v : String) (l : List (ℕ × String))
    (h : ∀ p ∈ l, p.1 ≠ k) :
    ((l ++ [(k, v)]).lookup k) = some v := by
  induction l with
  | nil => simp [List.lookup_cons]
  | cons a t ih =>
      obtain ⟨ak, av⟩ := a
      have hk : ak ≠ k := h (ak, av) (List.mem_cons_self _ _)
      rw [List.cons_append, List.lookup_cons]
      simp only [beq_false_of_ne (Ne.symm hk)]
      exact ih fun p hp => h p (List.mem_cons_of_mem _ hp)

theorem dictInsert_lookup (l : List (ℕ × String)) (k : ℕ) (v : String) :
    (dictInsert l k v).lookup k = some v := by
  unfold dictInsert
  split
  · rename_i h
    rcases lookup_map_overwrite k v l with hl | hl
    · exact hl
    · exfalso
      rw [List.any_eq_true] at h
      obtain ⟨p, hp, hpk⟩ := h
      exact hl p hp (by simpa using hpk)
  · rename_i h
    apply lookup_append_new
    intro p hp hpk
    exact h (List.any_eq_true.mpr ⟨p, hp, by simp [hpk]⟩)

theorem logMem_output_field (s : Controller) (now : ℕ) (msg : String) :
    (logMem s now msg).output_field = s.output_field := rfl

theorem measuredFieldRun_output_field (s : Controller) (rd : ReadOutcome) (now : ℕ) :
    (measuredFieldRun s rd now).state.output_field = s.output_field := by
  cases rd <;> rfl

/-! ### C4: the conversion functions are the calibration polynomials -/

/-- Fifth-degree polynomial with explicit coefficients, the form in which
the spec states the two calibration maps. -/
def poly5 (a0 a1 a2 a3 a4 a5 x : ℚ) : ℚ :=
  a0 + a1 * x + a2 * x ^ 2 + a3 * x ^ 3 + a4 * x ^ 4 + a5 * x ^ 5

/-- C4: `H2V` and `V2H` are pure, total, deterministic functions of their
argument (they are Lean functions on ℚ, defined on the whole line with no
error path), and each equals the fixed fifth-degree polynomial with
exactly the calibration coefficients the spec lists. -/
theorem conversions_are_calibration_polynomials (H V : ℚ) :
    H2V H = poly5 (-0.01268) 0.00281 3.02608e-10 (-1.5036e-11) (-1.66895e-16) 3.15376e-18 H ∧
    V2H V = poly5 (-0.05665) 260.16273 (-2.1979e-5) 0.01858 1.97225e-4 (-2.33726e-4) V := by
  constructor <;> · simp only [H2V, V2H, poly5]; ring

/-! ### C1: the construction-time safety gate -/

/-- C1: construction first performs a measured-field read; when the
measured field magnitude is below 10 Oe it succeeds, establishing the
synthetic `MagnetOutput` record with field 0 and voltage 0 at the "now"
timestamp without any hardware write, and logging the initialization
message; when the magnitude is at least 10 Oe it logs and raises
`ValueError("Initial magnetic field is not zero.")` and leaves
`_output_field` unset. -/
theorem construction_safety_gate (data : List ℚ) (tread tlog tout : ℕ) :
    readCount (constructRun (.ok data) tread tlog tout).events = 1 ∧
    (|V2H (mean data)| < 10 →
      (constructRun (.ok data) tread tlog tout).result = .ok () ∧
      (constructRun (.ok data) tread tlog tout).state.output_field = some ⟨tout, 0, 0⟩ ∧
      writes (constructRun (.ok data) tread tlog tout).events = [] ∧
      (constructRun (.ok data) tread tlog tout).state.log =
        [(tlog, "--- Initializing. Magnetic field is zero. ---")]) ∧
    (10 ≤ |V2H (mean data)| →
      (constructRun (.ok data) tread tlog tout).result =
        .error (.valueError "Initial magnetic field is not zero.") ∧
      (constructRun (.ok data) tread tlog tout).state.output_field = none ∧
      (constructRun (.ok data) tread tlog tout).state.log =
        [(tlog, "Initial magnetic field is not zero.")]) := by
  refine ⟨?_, ?_, ?_⟩
  · simp [constructRun, measuredFieldRun, readCount]
    split <;> simp [logMem, readCount]
  · intro h
    simp [constructRun, measuredFieldRun, logMem, dictInsert, writes, h]
  · intro h
    simp [constructRun, measuredFieldRun, logMem, dictInsert, not_lt.mpr h]

/-! ### C2: the setter's bound check -/

/-- C2: for every target field and every DAQ outcome, the `output_field`
setter raises `ValueError("Output voltage is not valid.")` exactly when
the converted target voltage fails to be strictly below the
output-channel max or strictly below the input-channel max — the
configured minimums never enter the check — and when it raises that
error, `_output_field` is left unchanged. -/
theorem setter_bound_check (cfg : Config) (s : Controller) (target : ℚ)
    (wr : WriteOutcome) (tlog tout : ℕ) :
    ((outputFieldSetRun cfg s target wr tlog tout).result =
        .error (.valueError "Output voltage is not valid.") ↔
      (¬ H2V target < cfg.V_OUT_MAX ∨ ¬ H2V target < cfg.V_IN_MAX)) ∧
    ((¬ H2V target < cfg.V_OUT_MAX ∨ ¬ H2V target < cfg.V_IN_MAX) →
      (outputFieldSetRun cfg s target wr tlog tout).state.output_field =
        s.output_field) := by
  by_cases hv : H2V target < cfg.V_OUT_MAX ∧ H2V target < cfg.V_IN_MAX
  · cases hout : s.output_field <;> cases wr <;>
      simp [outputFieldSetRun, hout, if_pos hv, logMem, hv.1, hv.2]
  · rw [not_and_or] at hv
    simp [outputFieldSetRun, if_neg (not_and_or.mpr hv), logMem, hv]
    exact hv.imp not_lt.mp not_lt.mp

/-! ### C3: the successful setter writes one full ramp -/

/-- C3: when the converted voltage passes validation and the hardware
write succeeds, the setter performs exactly one hardware write, whose
payload is the `linspace` ramp from the current `_output_field.voltage`
to the target voltage with exactly `int(WRITE_SAMPLE_CLOCK *
TIME_VOLTAGE_SWEEP)` samples — the length being independent of the start
and end voltages — including both endpoints, and then replaces
`_output_field` by the record holding the target field and its converted
voltage. -/
theorem setter_ramp_write (cfg : Config) (s : Controller) (prev : MagnetOutput)
    (target : ℚ) (tlog tout : ℕ)
    (hprev : s.output_field = some prev)
    (h1 : H2V target < cfg.V_OUT_MAX) (h2 : H2V target < cfg.V_IN_MAX)
    (hN : cfg.WRITE_ARRAY_LENGTH = rampLen cfg) (h2N : 2 ≤ cfg.WRITE_ARRAY_LENGTH) :
    (outputFieldSetRun cfg s target none tlog tout).result = .ok () ∧
    writes (outputFieldSetRun cfg s target none tlog tout).events =
      [linspace prev.voltage (H2V target) cfg.WRITE_ARRAY_LENGTH] ∧
    (linspace prev.voltage (H2V target) cfg.WRITE_ARRAY_LENGTH).length = rampLen cfg ∧
    (linspace prev.voltage (H2V target) cfg.WRITE_ARRAY_LENGTH).head? =
      some prev.voltage ∧
    (linspace prev.voltage (H2V target) cfg.WRITE_ARRAY_LENGTH).getLast? =
      some (H2V target) ∧
    (outputFieldSetRun cfg s target none tlog tout).state.output_field =
      some ⟨tout, target, H2V target⟩ := by
  refine ⟨?_, ?_, ?_, ?_, ?_, ?_⟩
  · simp [outputFieldSetRun, hprev, if_pos (And.intro h1 h2)]
  · simp [outputFieldSetRun, hprev, if_pos (And.intro h1 h2), writes]
  · rw [linspace_length, hN]
  · exact linspace_head _ _ _ h2N
  · exact linspace_getLast _ _ _ h2N
  · simp [outputFieldSetRun, hprev, if_pos (And.intro h1 h2), logMem]

/-- Controller state holding the synthetic zero output record, as it is
right after a successful construction at timestamp 0; used as a concrete
instance by witnesses. -/
def ctrlZero : Controller :=
  { output_field := some ⟨0, 0, 0⟩,
    measured_field := some ⟨0, V2H 0, 0⟩,
    log := [(0, "--- Initializing. Magnetic field is zero. ---")] }

theorem setter_ramp_write_witness :
    (outputFieldSetRun {} ctrlZero 100 none 7 8).result = .ok () ∧
    writes (outputFieldSetRun {} ctrlZero 100 none 7 8).events =
      [linspace (0 : ℚ) (H2V 100) 1000] ∧
    (linspace (0 : ℚ) (H2V 100) 1000).length = rampLen {} ∧
    (linspace (0 : ℚ) (H2V 100) 1000).head? = some (0 : ℚ) ∧
    (linspace (0 : ℚ) (H2V 100) 1000).getLast? = some (H2V 100) ∧
    (outputFieldSetRun {} ctrlZero 100 none 7 8).state.output_field =
      some ⟨8, 100, H2V 100⟩ := by
  have h := setter_ramp_write {} ctrlZero ⟨0, 0, 0⟩ 100 7 8 rfl
    (by norm_num [H2V]) (by norm_num [H2V])
    (by norm_num [rampLen, pyInt]; decide) (by norm_num)
  simpa using h

/-! ### C5: the output-voltage invariant over reachable states -/

theorem constructRun_spec_small (data : List ℚ) (tread tlog tout : ℕ)
    (h : |V2H (mean data)| < 10) :
    constructRun (.ok data) tread tlog tout =
      ⟨.ok (),
       { output_field := some ⟨tout, 0, 0⟩,
         measured_field := some ⟨tread, V2H (mean data), mean data⟩,
         log := [(tlog, "--- Initializing. Magnetic field is zero. ---")] },
       [.sessionOpen, .readSamples, .sessionStop, .sessionClose]⟩ := by
  simp [constructRun, measuredFieldRun, logMem, dictInsert, h]

theorem constructRun_spec_large (data : List ℚ) (tread tlog tout : ℕ)
    (h : 10 ≤ |V2H (mean data)|) :
    constructRun (.ok data) tread tlog tout =
      ⟨.error (.valueError "Initial magnetic field is not zero."),
       { output_field := none,
         measured_field := some ⟨tread, V2H (mean data), mean data⟩,
         log := [(tlog, "Initial magnetic field is not zero.")] },
       [.sessionOpen, .readSamples, .sessionStop, .sessionClose]⟩ := by
  simp [constructRun, measuredFieldRun, logMem, dictInsert, not_lt.mpr h]

/-- Configuration identical to the default except for a negative
output-channel maximum — a value the constructor accepts unchecked. -/
def cfgNeg : Config := { V_OUT_MAX := -1 }

/-- C5 counterexample: with output-channel max configured to −1, the
state reached by a successful construction (hall reading 0) holds the
synthetic record with voltage 0, and 0 is not strictly below the
output-channel max, refuting the claimed invariant for arbitrary
configurations. -/
theorem output_voltage_invariant_cex :
    Reachable cfgNeg (constructRun (.ok [0]) 0 0 0).state ∧
    (constructRun (.ok [0]) 0 0 0).state.output_field = some ⟨0, 0, 0⟩ ∧
    ¬ ((0 : ℚ) < cfgNeg.V_OUT_MAX) := by
  have hs := constructRun_spec_small [0] 0 0 0 (by norm_num [mean, V2H, abs_lt])
  exact ⟨Reachable.init (.ok [0]) 0 0 0 (by rw [hs]), by rw [hs],
    by norm_num [cfgNeg]⟩

/-- C5 amended: provided the configured output-channel and input-channel
maxima are positive (as they are in the default configuration), every
state reachable by construction followed by any sequence of public
operations has, whenever `_output_field` is set, a voltage strictly below
both maxima, and every operation preserves this. The positivity proviso
is forced: construction installs the synthetic voltage-0 record without
consulting the bounds, so a configuration with a non-positive maximum
reaches a violating state. -/
theorem output_voltage_invariant (cfg : Config) (s : Controller)
    (hout : 0 < cfg.V_OUT_MAX) (hin : 0 < cfg.V_IN_MAX)
    (hr : Reachable cfg s) :
    ∀ o : MagnetOutput, s.output_field = some o →
      o.voltage < cfg.V_OUT_MAX ∧ o.voltage < cfg.V_IN_MAX := by
  induction hr with
  | init rd tread tlog tout h =>
      intro o ho
      cases rd with
      | error e => simp [constructRun, measuredFieldRun] at h
      | ok data =>
          by_cases hsmall : |V2H (mean data)| < 10
          · rw [constructRun_spec_small data tread tlog tout hsmall] at ho
            simp only [Option.some.injEq] at ho
            rw [← ho]
            exact ⟨hout, hin⟩
          · rw [constructRun_spec_large data tread tlog tout (not_lt.mp hsmall)] at h
            simp at h
  | step s op hs ih =>
      intro o ho
      cases op with
      | getField => exact ih o ho
      | measure rd now =>
          simp only [stepState, measuredFieldRun_output_field] at ho
          exact ih o ho
      | setField target wr tlog tout =>
          simp only [stepState] at ho
          by_cases hv : H2V target < cfg.V_OUT_MAX ∧ H2V target < cfg.V_IN_MAX
          · cases hprev : s.output_field with
            | none =>
                simp [outputFieldSetRun, hprev, if_pos hv] at ho
            | some prev =>
                cases wr with
                | some e =>
                    simp [outputFieldSetRun, hprev, if_pos hv] at ho
                    exact ho ▸ ih prev hprev
                | none =>
                    simp [outputFieldSetRun, hprev, if_pos hv, logMem] at ho
                    rw [← ho]
                    exact hv
          · simp [outputFieldSetRun, if_neg hv, logMem] at ho
            exact ih o ho

theorem output_voltage_invariant_witness :
    (MagnetOutput.mk 0 0 0).voltage < ({} : Config).V_OUT_MAX ∧
    (MagnetOutput.mk 0 0 0).voltage < ({} : Config).V_IN_MAX := by
  have hs := constructRun_spec_small [0] 0 0 0 (by norm_num [mean, V2H, abs_lt])
  exact output_voltage_invariant {} (constructRun (.ok [0]) 0 0 0).state
    (by norm_num) (by norm_num)
    (Reachable.init (.ok [0]) 0 0 0 (by rw [hs]))
    ⟨0, 0, 0⟩ (by rw [hs])

/-! ### C6: the measured-field read -/

/-- C6: for every nonempty sample sequence the hardware read returns, the
`measured_field` accessor computes the arithmetic mean of the samples,
converts it to a field value by `V2H`, stores the record stamped with the
current time in `_measured_field`, returns exactly that stored record,
and changes nothing else in the controller state. -/
theorem measured_field_mean_store_return (s : Controller) (data : List ℚ) (now : ℕ)
    (_hne : data ≠ []) :
    (measuredFieldRun s (.ok data) now).result =
      .ok ⟨now, V2H (mean data), mean data⟩ ∧
    (measuredFieldRun s (.ok data) now).state.measured_field =
      some ⟨now, V2H (mean data), mean data⟩ ∧
    (measuredFieldRun s (.ok data) now).state =
      { s with measured_field := some ⟨now, V2H (mean data), mean data⟩ } :=
  ⟨rfl, rfl, rfl⟩

theorem measured_field_mean_store_return_witness :
    mean [1, 2, 3] = 2 ∧
    (measuredFieldRun ctrlZero (.ok [1, 2, 3]) 5).state.measured_field =
      some ⟨5, V2H (mean [1, 2, 3]), mean [1, 2, 3]⟩ := by
  exact ⟨by norm_num [mean],
    (measured_field_mean_store_return ctrlZero [1, 2, 3] 5 (by simp)).2.1⟩

/-! ### C7: hardware-session release -/

/-- C7 counterexample: when the DAQ read raises, `measured_field`
propagates the hardware error with the session opened by `nidaqmx.Task()`
neither stopped nor closed — the source calls `task.stop()` and
`task.close()` only after a successful read, with no protecting
finalizer — refuting release on every exit path. -/
theorem session_release_cex :
    (measuredFieldRun ctrlZero (.error "DAQ read failed") 0).result =
      .error (.hardware "DAQ read failed") ∧
    openCount (measuredFieldRun ctrlZero (.error "DAQ read failed") 0).events = 1 ∧
    stopCount (measuredFieldRun ctrlZero (.error "DAQ read failed") 0).events = 0 ∧
    closeCount (measuredFieldRun ctrlZero (.error "DAQ read failed") 0).events = 0 := by
  exact ⟨rfl, rfl, rfl, rfl⟩

/-- C7 amended: sessions opened by `measured_field` and the
`output_field` setter are stopped and closed on the paths where the DAQ
calls succeed, before the operation returns; but when the DAQ collaborator
raises during the read or the write, the error propagates with the
session still open (one opened, none stopped or closed). -/
theorem session_release_amended (cfg : Config) (s : Controller)
    (prev : MagnetOutput) (data : List ℚ) (e emsg : String) (target : ℚ)
    (now tlog tout : ℕ) :
    (openCount (measuredFieldRun s (.ok data) now).events = 1 ∧
      stopCount (measuredFieldRun s (.ok data) now).events = 1 ∧
      closeCount (measuredFieldRun s (.ok data) now).events = 1) ∧
    (openCount (measuredFieldRun s (.error e) now).events = 1 ∧
      stopCount (measuredFieldRun s (.error e) now).events = 0 ∧
      closeCount (measuredFieldRun s (.error e) now).events = 0) ∧
    ((outputFieldSetRun cfg s target none tlog tout).result = .ok () →
      openCount (outputFieldSetRun cfg s target none tlog tout).events = 1 ∧
      stopCount (outputFieldSetRun cfg s target none tlog tout).events = 1 ∧
      closeCount (outputFieldSetRun cfg s target none tlog tout).events = 1) ∧
    (s.output_field = some prev →
      H2V target < cfg.V_OUT_MAX → H2V target < cfg.V_IN_MAX →
      openCount (outputFieldSetRun cfg s target (some emsg) tlog tout).events = 1 ∧
      stopCount (outputFieldSetRun cfg s target (some emsg) tlog tout).events = 0 ∧
      closeCount (outputFieldSetRun cfg s target (some emsg) tlog tout).events = 0) := by
  refine ⟨⟨rfl, rfl, rfl⟩, ⟨rfl, rfl, rfl⟩, ?_, ?_⟩
  · intro hok
    by_cases hv : H2V target < cfg.V_OUT_MAX ∧ H2V target < cfg.V_IN_MAX
    · cases hprev : s.output_field with
      | none => simp [outputFieldSetRun, hprev, if_pos hv] at hok
      | some prev2 =>
          simp [outputFieldSetRun, hprev, if_pos hv, openCount, stopCount,
            closeCount, List.filter]
    · simp [outputFieldSetRun, if_neg hv] at hok
  · intro hprev h1 h2
    simp [outputFieldSetRun, hprev, if_pos (And.intro h1 h2), openCount,
      stopCount, closeCount, List.filter]

/-! ### C8: logging with file fallback -/

/-- C8: with file saving enabled, a log call appends the line when the
log file exists, and when the append fails because the file is missing it
creates the file holding the line instead of raising; previously written
lines are always preserved as a prefix; and the message is recorded in
the in-memory log under the current timestamp. -/
theorem log_call_file_and_memory (cfg : Config) (s : Controller) (fs : FileSys)
    (msg : String) (now : ℕ) (hsave : cfg.save_log = true) :
    (fs.file = none → logFile cfg fs now msg = ⟨some [logLine now msg]⟩) ∧
    (∀ ls, fs.file = some ls →
      logFile cfg fs now msg = ⟨some (ls ++ [logLine now msg])⟩) ∧
    (logMem s now msg).log.lookup now = some msg := by
  refine ⟨?_, ?_, ?_⟩
  · intro h
    simp [logFile, appendLine, truncWriteLine, hsave, h]
  · intro ls h
    simp [logFile, appendLine, hsave, h]
  · exact dictInsert_lookup s.log now msg

theorem log_call_file_and_memory_witness :
    logFile {} ⟨none⟩ 3 "hello" = ⟨some [logLine 3 "hello"]⟩ ∧
    (logMem ctrlZero 3 "hello").log.lookup 3 = some "hello" :=
  ⟨(log_call_file_and_memory {} ctrlZero ⟨none⟩ "hello" 3 rfl).1 rfl,
   (log_call_file_and_memory {} ctrlZero ⟨none⟩ "hello" 3 rfl).2.2⟩

/-! ### C9: the synthetic zero record versus the calibration offset -/

/-- C9: `H2V 0` equals the constant coefficient −0.01268, which is
nonzero, so the synthetic construction record (field 0, voltage 0) does
not satisfy `voltage = H2V field`; consequently the first ramp issued
after construction starts at 0 V — its first sample — and not at
`H2V 0`. -/
theorem synthetic_zero_mismatch :
    H2V 0 = -0.01268 ∧
    H2V 0 ≠ 0 ∧
    (constructRun (.ok [0]) 0 0 0).state.output_field = some ⟨0, 0, 0⟩ ∧
    writes (outputFieldSetRun {} (constructRun (.ok [0]) 0 0 0).state
        100 none 1 2).events =
      [linspace 0 (H2V 100) 1000] ∧
    (linspace (0 : ℚ) (H2V 100) 1000).head? = some 0 ∧
    (0 : ℚ) ≠ H2V 0 := by
  have hs := constructRun_spec_small [0] 0 0 0 (by norm_num [mean, V2H, abs_lt])
  have hv : H2V 100 < (10 : ℚ) := by norm_num [H2V]
  refine ⟨by norm_num [H2V], by norm_num [H2V], by rw [hs], ?_,
    linspace_head _ _ _ (by norm_num), by norm_num [H2V]⟩
  rw [hs]
  simp [outputFieldSetRun, writes, hv]

/-! ### C10: construction is not side-effect-free on failure -/

/-- C10: every construction attempt whose hardware read returns samples
performs exactly one hardware read, stores the resulting measurement in
`_measured_field`, and appends exactly one log entry — including the
attempts that fail the 10 Oe safety check, which raise with the failure
entry already in the log; so a failed construction is not
side-effect-free on the controller's state and log. -/
theorem construction_not_side_effect_free (data : List ℚ) (tread tlog tout : ℕ) :
    readCount (constructRun (.ok data) tread tlog tout).events = 1 ∧
    (constructRun (.ok data) tread tlog tout).state.measured_field =
      some ⟨tread, V2H (mean data), mean data⟩ ∧
    (constructRun (.ok data) tread tlog tout).state.log.length = 1 ∧
    (10 ≤ |V2H (mean data)| →
      (constructRun (.ok data) tread tlog tout).result =
        .error (.valueError "Initial magnetic field is not zero.") ∧
      (constructRun (.ok data) tread tlog tout).state.log =
        [(tlog, "Initial magnetic field is not zero.")]) := by
  by_cases h : |V2H (mean data)| < 10
  · rw [constructRun_spec_small data tread tlog tout h]
    exact ⟨rfl, rfl, rfl, fun hle => absurd h (not_lt.mpr hle)⟩
  · rw [constructRun_spec_large data tread tlog tout (not_lt.mp h)]
    exact ⟨rfl, rfl, rfl, fun _ => ⟨rfl, rfl⟩⟩

end Magnet
